import Mathlib

/-!
Verification development for the rootfs-provisioning core in `src/create.rs`
(the `unbox` repository).  The Rust source is shallowly embedded: every
side-effecting step is made explicit as a pure transformation of a filesystem
state `St` together with a list of emitted `Event`s, and fallible steps return
`Except Err`.  The external collaborators that are not part of `src/`
(`crate::config`, `crate::namespaces`) are modelled from the specification, as
noted on the corresponding definitions.
-/

namespace Unbox

/-- Result of `std::process::Command::output()`: captured standard output and
the numeric exit status.  Only the fields the source consults are modelled
(standard error is captured but never read by `create.rs`). -/
structure Output where
  stdout : String
  status : Nat
deriving DecidableEq

/-- Kind of a tar archive entry, as recorded in the entry header. -/
inductive EntryKind
  | regular
  | directory
  | symlink
  | hardlink
  | other
deriving DecidableEq

/-- One tar archive entry: the raw header path (directories usually carry a
trailing slash, which counts towards `path_bytes().len()`), the header entry
kind, and the recorded metadata the unpacker applies. -/
structure Entry where
  path : String
  kind : EntryKind
  mode : Nat
  mtime : Nat
deriving DecidableEq

/-- A filesystem node: whether it is a directory, its permission bits and its
modification time.  File contents are irrelevant to every claim and are not
modelled. -/
structure Node where
  isDir : Bool
  mode : Nat
  mtime : Nat
deriving DecidableEq

/-- The filesystem is an association list from absolute paths (component
lists) to nodes; a later (more recent) binding shadows an earlier one. -/
abbrev FS := List (List String × Node)

/-- Mutable state threaded through the embedding: the filesystem and a
monotone clock used as the current time for mtime side effects. -/
structure St where
  fs : FS
  clock : Nat
deriving DecidableEq

/-- Modelled from the spec: one UID/GID range mapping entry of the
`crate::namespaces` collaborator (whose source is not under `src/`); the
fields are the strings written into the uid/gid map, exactly as built at
`create.rs` lines 121-125. -/
structure Mapping where
  inside : String
  outside : String
  len : String
deriving DecidableEq

/-- Observable events emitted by a provisioning run: progress display
activity, subprocess invocations, the namespace-creation call with its
mappings, the opening of a tar archive, and the unpacking of one entry. -/
inductive Event
  | display (msg : String)
  | clearDisplay
  | spawnEv (cmd : String) (args : List String)
  | nsStart (mappings : List Mapping)
  | tarOpen (path : String)
  | unpackEntry (path : String)
deriving DecidableEq

/-- Error taxonomy of the embedding, matching the `eyre` error strings of the
source: `targetExists` is the "There is already an image with that name"
failure, `configurationError` covers the two missing-argument reports,
`engineErr` the failed subprocess spawn, `extractionErr` the archive
open/unpack failures, `namespaceErr` a rejected namespace creation,
`ioErr` the wrapped root-directory creation failure, and `panicked` an
`expect` panic. -/
inductive Err
  | targetExists
  | configReadErr
  | configurationError (msg : String)
  | engineErr (msg : String)
  | extractionErr (msg : String)
  | namespaceErr
  | ioErr (msg : String)
  | panicked (msg : String)
deriving DecidableEq

/-- Modelled from the spec: the persisted toolbox configuration of the
`crate::config` collaborator (source not under `src/`), consumed as
an image path equal to the provisioning target plus a shell override. -/
structure Config where
  image : String
  shell : String

/-- The OCI engine choice (`docker` or `podman`), as in the source enum. -/
inductive Engine
  | docker
  | podman
deriving DecidableEq

/-- Binary name selected by the `match` at `create.rs` lines 74-77. -/
def Engine.binary : Engine → String
  | .docker => "docker"
  | .podman => "podman"

/-- Command-line arguments of the create operation (the `Create` struct). -/
structure Create where
  name : String
  tar : Option String
  image : Option String
  engine : Option Engine
  shell : Option String
  quiet : Bool

/-- Ambient environment of one run: the caller's real UID, the configuration
collaborator (modelled from the spec, `crate::config` is not under `src/`),
whether the user-namespace creation syscall succeeds (modelled from the spec,
`crate::namespaces` is not under `src/`), the behaviour of the external
engine binary (`none` models a spawn failure, i.e. `Command::output()`
returning an error), the readable tar archives by path, and the
`Path::is_dir()` test that `unpack_tar` performs: a live filesystem query of
the raw archive path resolved against the process's current working
directory. -/
structure Env where
  uid : Nat
  configs : String → Option Config
  nsStartOk : Bool
  engine : String → List String → Option Output
  archives : String → Option (List Entry)
  cwdIsDir : String → Bool

/-- Split a character list at `/` separators. -/
def splitChars : List Char → List (List Char)
  | [] => [[]]
  | c :: cs =>
    match splitChars cs with
    | [] => [[c]]
    | p :: ps => if c = '/' then [] :: p :: ps else (c :: p) :: ps

/-- Parse a path string into its nonempty components, as `std::path::Path`
iteration does (empty components and a trailing slash are ignored). -/
def splitPath (s : String) : List String :=
  ((splitChars s.data).map (fun l => String.mk l)).filter (fun c => c ≠ "")

/-- Trim of leading and trailing whitespace, modelling Rust's `str::trim`. -/
def strTrim (s : String) : String :=
  String.mk (((s.data.dropWhile Char.isWhitespace).reverse.dropWhile
    Char.isWhitespace).reverse)

/-- Look a path up in the filesystem (the most recent binding wins). -/
def fsLookup (fs : FS) (p : List String) : Option Node :=
  (fs.find? (fun en => en.1 == p)).map (fun en => en.2)

/-- Bind a path to a node, shadowing any previous binding. -/
def fsSet (fs : FS) (p : List String) (n : Node) : FS :=
  (p, n) :: fs

/-- Does a node (of any kind) exist at the path? (`Path::exists`). -/
def fsExists (fs : FS) (p : List String) : Bool :=
  (fsLookup fs p).isSome

/-- Does a directory exist at the path? (`Path::is_dir` on the real tree). -/
def fsIsDir (fs : FS) (p : List String) : Bool :=
  match fsLookup fs p with
  | some n => n.isDir
  | none => false

/-- Operating-system side effect of creating a child: the parent directory's
modification time is set to the current clock. -/
def touchParent (st : St) (p : List String) : St :=
  match fsLookup st.fs p.dropLast with
  | some n => { st with fs := fsSet st.fs p.dropLast { n with mtime := st.clock } }
  | none => st

/-- Create a node at a previously absent path: bind it, stamp the parent's
mtime with the current clock, and advance the clock. -/
def createNode (st : St) (p : List String) (n : Node) : St :=
  let st1 : St := { st with fs := fsSet st.fs p n }
  let st2 := touchParent st1 p
  { st2 with clock := st2.clock + 1 }

/-- Default permission bits of directories created implicitly (missing
ancestors and `create_dir_all`). -/
def defaultMode : Nat := 0o755

/-- Walk the remaining components under `pref`, creating each missing
directory with default metadata (`fs::create_dir_all` semantics); fails when
an intermediate path exists but is not a directory. -/
def mkdirSteps (st : St) (pref : List String) : List String → Bool × St
  | [] => (true, st)
  | c :: cs =>
    match fsLookup st.fs (pref ++ [c]) with
    | some n =>
      if n.isDir then mkdirSteps st (pref ++ [c]) cs
      else (false, st)
    | none =>
      mkdirSteps (createNode st (pref ++ [c]) ⟨true, defaultMode, st.clock⟩)
        (pref ++ [c]) cs

/-- Unpack one archive entry under `newRoot` (`Entry::unpack_in`): create the
missing ancestor directories with default metadata, then materialize the
entry itself, applying its recorded mode and mtime; a directory entry whose
path already exists as a directory only has its recorded metadata applied
(which does not touch the parent's mtime). -/
def unpackIn (st : St) (newRoot : List String) (e : Entry) : Bool × St :=
  match mkdirSteps st [] (newRoot ++ splitPath e.path).dropLast with
  | (false, st1) => (false, st1)
  | (true, st1) =>
    match e.kind with
    | .directory =>
      match fsLookup st1.fs (newRoot ++ splitPath e.path) with
      | some n =>
        if n.isDir then
          (true, { st1 with
            fs := fsSet st1.fs (newRoot ++ splitPath e.path) ⟨true, e.mode, e.mtime⟩ })
        else (false, st1)
      | none =>
        (true, createNode st1 (newRoot ++ splitPath e.path) ⟨true, e.mode, e.mtime⟩)
    | _ =>
      match fsLookup st1.fs (newRoot ++ splitPath e.path) with
      | some n =>
        if n.isDir then (false, st1)
        else (true, { st1 with
          fs := fsSet st1.fs (newRoot ++ splitPath e.path) ⟨false, e.mode, e.mtime⟩ })
      | none =>
        (true, createNode st1 (newRoot ++ splitPath e.path) ⟨false, e.mode, e.mtime⟩)

/-- First pass of `unpack_tar` (`create.rs` lines 144-154): walk the entries
in archive order; an entry for which `entry.path().is_dir()` holds — a query
of the live filesystem at the process's current working directory, supplied
by `env.cwdIsDir` — is pushed onto the deferred list, every other entry is
unpacked immediately; an unpack failure aborts.  Returns the outcome, the
state, the emitted events and the deferred entries in encounter order. -/
def unpackLoop (env : Env) (newRoot : List String) :
    List Entry → St → Except Err Unit × St × List Event × List Entry
  | [], st => (.ok (), st, [], [])
  | e :: es, st =>
    if env.cwdIsDir e.path then
      match unpackLoop env newRoot es st with
      | (r, st1, evs, ds) => (r, st1, evs, e :: ds)
    else
      match unpackIn st newRoot e with
      | (false, st1) =>
        (.error (.extractionErr "Could not unpack entry"), st1,
          [Event.unpackEntry e.path], [])
      | (true, st1) =>
        match unpackLoop env newRoot es st1 with
        | (r, st2, evs, ds) => (r, st2, Event.unpackEntry e.path :: evs, ds)

/-- Insert an entry into a list kept sorted by descending path byte length
(stable among equal lengths). -/
def insertDesc (e : Entry) : List Entry → List Entry
  | [] => [e]
  | x :: xs =>
    if e.path.utf8ByteSize ≤ x.path.utf8ByteSize then x :: insertDesc e xs
    else e :: x :: xs

/-- The `sort_unstable_by_key(|b| Reverse(b.path_bytes().len()))` of
`create.rs` line 155: sort by descending byte length of the raw path. -/
def sortDescByPathLen (l : List Entry) : List Entry :=
  l.foldl (fun acc e => insertDesc e acc) []

/-- Second pass of `unpack_tar` (`create.rs` lines 156-159): unpack the
deferred entries in the given order; a failure aborts. -/
def unpackDirsPhase (newRoot : List String) :
    List Entry → St → Except Err Unit × St × List Event
  | [], st => (.ok (), st, [])
  | d :: ds, st =>
    match unpackIn st newRoot d with
    | (false, st1) =>
      (.error (.extractionErr "Could not unpack a directory"), st1,
        [Event.unpackEntry d.path])
    | (true, st1) =>
      match unpackDirsPhase newRoot ds st1 with
      | (r, st2, evs) => (r, st2, Event.unpackEntry d.path :: evs)

/-- The tar extraction engine `unpack_tar` (`create.rs` lines 140-161): open
the archive, stream its entries once deferring those for which
`entry.path().is_dir()` holds, then unpack the deferred list sorted by
descending path byte length. -/
def unpack_tar (env : Env) (st : St) (tar : String) (newRoot : List String) :
    Except Err Unit × St × List Event :=
  match env.archives tar with
  | none => (.error (.extractionErr "Could not open the tar file"), st, [])
  | some entries =>
    match unpackLoop env newRoot entries st with
    | (.error e, st1, evs, _) => (.error e, st1, Event.tarOpen tar :: evs)
    | (.ok _, st1, evs, ds) =>
      match unpackDirsPhase newRoot (sortDescByPathLen ds) st1 with
      | (r, st2, evs2) => (r, st2, Event.tarOpen tar :: (evs ++ evs2))

/-- The `Spinner` of `create.rs` lines 86-116 holds a progress bar exactly
when the quiet flag is off; only its activity flag is observable. -/
def Spinner.new (quiet : Bool) : Bool := !quiet

/-- `Spinner::message`: display activity emitted only when active. -/
def spinnerMessage (active : Bool) (msg : String) : List Event :=
  if active then [Event.display msg] else []

/-- `Spinner::clear`: display teardown emitted only when active. -/
def spinnerClear (active : Bool) : List Event :=
  if active then [Event.clearDisplay] else []

/-- The `spawn` helper (`create.rs` lines 176-186): run the engine binary
with the given arguments and capture its output; the only failure is the
inability to execute the binary — the exit status recorded in the returned
`Output` is not inspected here or by any caller. -/
def spawn (env : Env) (cmd : String) (args : List String) :
    Except Err Output × List Event :=
  (match env.engine cmd args with
    | some out => .ok out
    | none => .error (.engineErr "Could not execute the provided engine"),
   [Event.spawnEv cmd args])

/-- The image acquisition `get_image` (`create.rs` lines 163-174): invoke
`engine create <url>`, take the captured standard output trimmed of
surrounding whitespace as the container id, invoke
`engine export <id> --output <tar_file>`, then `engine rm <id>`; a spawn
failure at any step aborts immediately. -/
def get_image (env : Env) (engine url tarFile : String) (quiet : Bool) :
    Except Err Unit × List Event :=
  match spawn env engine ["create", url] with
  | (.error e, evs1) =>
    (.error e, spinnerMessage (Spinner.new quiet) "Downloading image" ++ evs1)
  | (.ok out, evs1) =>
    match spawn env engine ["export", strTrim out.stdout, "--output", tarFile] with
    | (.error e, evs2) =>
      (.error e,
        spinnerMessage (Spinner.new quiet) "Downloading image" ++ evs1 ++ evs2)
    | (.ok _, evs2) =>
      match spawn env engine ["rm", strTrim out.stdout] with
      | (.error e, evs3) =>
        (.error e,
          spinnerMessage (Spinner.new quiet) "Downloading image" ++ evs1 ++ evs2 ++ evs3)
      | (.ok _, evs3) =>
        (.ok (),
          spinnerMessage (Spinner.new quiet) "Downloading image" ++ evs1 ++ evs2 ++ evs3
            ++ spinnerClear (Spinner.new quiet))

/-- The `create_dirs` helper (`create.rs` lines 188-193): `create_dir_all`
for each placeholder name under the root; a failure is an `expect` panic. -/
def create_dirs (st : St) (root : List String) : List String → Bool × St
  | [] => (true, st)
  | d :: ds =>
    match mkdirSteps st [] (root ++ [d]) with
    | (false, st1) => (false, st1)
    | (true, st1) => create_dirs st1 root ds

/-- `File::create` semantics for the resolver stub (`create.rs` line 134):
succeeds only when the parent directory already exists (no ancestors are
created); creates or truncates the file, stamping the current clock. -/
def fileCreate (st : St) (p : List String) : Bool × St :=
  match fsLookup st.fs p.dropLast with
  | some parent =>
    if parent.isDir then
      match fsLookup st.fs p with
      | some m =>
        if m.isDir then (false, st)
        else (true, { st with fs := fsSet st.fs p ⟨false, m.mode, st.clock⟩ })
      | none => (true, createNode st p ⟨false, 0o644, st.clock⟩)
    else (false, st)
  | none => (false, st)

/-- `setup_new_root` (`create.rs` lines 118-138): build the single UID
mapping `0 → current uid, len 1`, create the user namespace and wait for it
(the `crate::namespaces` collaborator is modelled from the spec by the
`env.nsStartOk` switch; its source is not under `src/`), unpack the tar into
the new root, create the four placeholder directories, and create the
resolver stub at `etc/resolv.conf` — an `expect` panic when `etc` does not
exist. -/
def setup_new_root (env : Env) (st : St) (newRoot : List String) (tar : String)
    (quiet : Bool) : Except Err Unit × St × List Event :=
  if env.nsStartOk then
    match unpack_tar env st tar newRoot with
    | (.error e, st1, evs) =>
      (.error e, st1,
        Event.nsStart [⟨"0", toString env.uid, "1"⟩]
          :: (spinnerMessage (Spinner.new quiet) "Unpacking tar file" ++ evs))
    | (.ok _, st1, evs) =>
      match create_dirs st1 newRoot ["host", "proc", "sys", "dev"] with
      | (false, st2) =>
        (.error (.panicked "path exists and is writable"), st2,
          Event.nsStart [⟨"0", toString env.uid, "1"⟩]
            :: (spinnerMessage (Spinner.new quiet) "Unpacking tar file" ++ evs
              ++ spinnerMessage (Spinner.new quiet) "Setting up files and directories"))
      | (true, st2) =>
        match fileCreate st2 (newRoot ++ ["etc", "resolv.conf"]) with
        | (false, st3) =>
          (.error (.panicked "path exists and is writable"), st3,
            Event.nsStart [⟨"0", toString env.uid, "1"⟩]
              :: (spinnerMessage (Spinner.new quiet) "Unpacking tar file" ++ evs
                ++ spinnerMessage (Spinner.new quiet) "Setting up files and directories"))
        | (true, st3) =>
          (.ok (), st3,
            Event.nsStart [⟨"0", toString env.uid, "1"⟩]
              :: (spinnerMessage (Spinner.new quiet) "Unpacking tar file" ++ evs
                ++ spinnerMessage (Spinner.new quiet) "Setting up files and directories"
                ++ spinnerClear (Spinner.new quiet)))
  else
    (.error .namespaceErr, st, [Event.nsStart [⟨"0", toString env.uid, "1"⟩]])

/-- The `create` entry point (`create.rs` lines 53-84): read the toolbox
configuration (the `crate::config` collaborator is modelled from the spec by
`env.configs`, with the shell override and `config.write` treated as
filesystem-neutral collaborator actions), fail if the target already exists,
create the target directory, then provision from the supplied tar, or from a
freshly acquired image when an engine is given, or fail reporting the missing
arguments. -/
def create (env : Env) (st : St) (args : Create) : Except Err Unit × St × List Event :=
  match env.configs args.name with
  | none => (.error .configReadErr, st, [])
  | some config =>
    if fsExists st.fs (splitPath config.image) then (.error .targetExists, st, [])
    else
      match mkdirSteps st [] (splitPath config.image) with
      | (false, st1) => (.error (.ioErr "Could not create the new root directory"), st1, [])
      | (true, st1) =>
        match args.tar with
        | some tar => setup_new_root env st1 (splitPath config.image) tar args.quiet
        | none =>
          match args.image with
          | some oci =>
            match args.engine with
            | none =>
              (.error (.configurationError "A valid engine has not been provided"), st1, [])
            | some eng =>
              match get_image env eng.binary oci
                  ("/tmp/unbox-" ++ args.name ++ "-image.tar") args.quiet with
              | (.error e, evs) => (.error e, st1, evs)
              | (.ok _, evs) =>
                match setup_new_root env st1 (splitPath config.image)
                    ("/tmp/unbox-" ++ args.name ++ "-image.tar") args.quiet with
                | (r, st2, evs2) => (r, st2, evs ++ evs2)
          | none =>
            (.error (.configurationError
              "No tar archive or valid OCI arguments have been provided"), st1, [])

/-- Container id derived from the `create` subcommand's captured standard
output, trimmed of surrounding whitespace (empty when the spawn failed). -/
def cidOf (env : Env) (engine url : String) : String :=
  match env.engine engine ["create", url] with
  | some out => strTrim out.stdout
  | none => ""

/-- Progress-display events (spinner output), the only events the quiet flag
controls. -/
def isDisplayEv : Event → Bool
  | .display _ => true
  | .clearDisplay => true
  | _ => false

/-- Trace restricted to the non-display events: the filesystem- and
process-relevant observables. -/
def filtEv (l : List Event) : List Event :=
  l.filter (fun e => !isDisplayEv e)

/-- Holds when an event is not a subprocess invocation. -/
def notEngineEv : Event → Bool
  | .spawnEv _ _ => false
  | _ => true

/-- Holds when an event, if it opens a tar archive, opens the given one. -/
def tarOpenOnly (t : String) : Event → Bool
  | .tarOpen p => p == t
  | _ => true

/-- Projection of the spawn events to `(binary, arguments)` pairs. -/
def spawnPairs (l : List Event) : List (String × List String) :=
  l.filterMap (fun ev => match ev with
    | Event.spawnEv c a => some (c, a)
    | _ => none)

/-- Shadowing semantics of `fsSet`: the new binding answers for its own path,
everything else is unchanged. -/
theorem fsLookup_set (fs : FS) (p q : List String) (n : Node) :
    fsLookup (fsSet fs p n) q = if q = p then some n else fsLookup fs q := by
  by_cases h : q = p
  · subst h
    simp [fsLookup, fsSet, List.find?]
  · have hb : (p == q) = false := by
      simp [beq_eq_false_iff_ne]
      exact fun hc => h hc.symm
    simp [fsLookup, fsSet, List.find?, hb, h]

/-- Directory test after a binding update. -/
theorem fsIsDir_set (fs : FS) (p q : List String) (n : Node) :
    fsIsDir (fsSet fs p n) q = if q = p then n.isDir else fsIsDir fs q := by
  by_cases h : q = p <;> simp [fsIsDir, fsLookup_set, h]

/-- Existence test after a binding update. -/
theorem fsExists_set (fs : FS) (p q : List String) (n : Node) :
    fsExists (fsSet fs p n) q = if q = p then true else fsExists fs q := by
  by_cases h : q = p <;> simp [fsExists, fsLookup_set, h]

/-- Touching a parent's mtime never changes which paths are directories. -/
theorem fsIsDir_touchParent (st : St) (p q : List String) :
    fsIsDir (touchParent st p).fs q = fsIsDir st.fs q := by
  unfold touchParent
  cases h : fsLookup st.fs p.dropLast with
  | none => rfl
  | some n =>
    simp only [fsIsDir_set]
    by_cases hq : q = p.dropLast
    · subst hq
      simp [fsIsDir, h]
    · simp [hq]

/-- Touching a parent's mtime never changes which paths exist. -/
theorem fsExists_touchParent (st : St) (p q : List String) :
    fsExists (touchParent st p).fs q = fsExists st.fs q := by
  unfold touchParent
  cases h : fsLookup st.fs p.dropLast with
  | none => rfl
  | some n =>
    simp only [fsExists_set]
    by_cases hq : q = p.dropLast
    · subst hq
      simp [fsExists, h]
    · simp [hq]

/-- Directory test after creating a fresh node. -/
theorem fsIsDir_createNode (st : St) (p q : List String) (n : Node) :
    fsIsDir (createNode st p n).fs q = if q = p then n.isDir else fsIsDir st.fs q := by
  unfold createNode
  by_cases h : q = p <;>
    simp [fsIsDir_touchParent, fsIsDir_set, h]

/-- Existence test after creating a fresh node. -/
theorem fsExists_createNode (st : St) (p q : List String) (n : Node) :
    fsExists (createNode st p n).fs q = if q = p then true else fsExists st.fs q := by
  unfold createNode
  by_cases h : q = p <;>
    simp [fsExists_touchParent, fsExists_set, h]

/-- `create_dir_all` preserves every existing directory. -/
theorem fsIsDir_mkdirSteps (rest : List String) :
    ∀ (st : St) (pref q : List String), fsIsDir st.fs q = true →
      fsIsDir (mkdirSteps st pref rest).2.fs q = true := by
  induction rest with
  | nil => intro st pref q h; exact h
  | cons c cs ih =>
    intro st pref q h
    unfold mkdirSteps
    cases hl : fsLookup st.fs (pref ++ [c]) with
    | some n =>
      by_cases hd : n.isDir
      · simp only [hd, if_true]
        exact ih st (pref ++ [c]) q h
      · simp only [hd, if_false]
        exact h
    | none =>
      apply ih
      rw [fsIsDir_createNode]
      by_cases hq : q = pref ++ [c]
      · simp [hq]
      · simp [hq, h]

/-- A successful `create_dir_all` leaves a directory at the full path. -/
theorem mkdirSteps_makes_dir (rest : List String) :
    ∀ (st : St) (pref : List String), rest ≠ [] →
      (mkdirSteps st pref rest).1 = true →
      fsIsDir (mkdirSteps st pref rest).2.fs (pref ++ rest) = true := by
  induction rest with
  | nil => intro st pref hne; exact absurd rfl hne
  | cons c cs ih =>
    intro st pref _ hok
    cases cs with
    | nil =>
      unfold mkdirSteps at hok ⊢
      cases hl : fsLookup st.fs (pref ++ [c]) with
      | some n =>
        simp only [hl] at hok ⊢
        cases hd : n.isDir with
        | true =>
          simp only [hd, if_true] at hok ⊢
          unfold mkdirSteps
          simp [fsIsDir, hl, hd]
        | false =>
          simp [hd] at hok
      | none =>
        simp only [hl] at hok ⊢
        unfold mkdirSteps
        rw [fsIsDir_createNode]
        simp
    | cons c' cs' =>
      have hrw : pref ++ c :: c' :: cs' = (pref ++ [c]) ++ (c' :: cs') := by
        rw [List.append_assoc, List.singleton_append]
      rw [hrw]
      unfold mkdirSteps at hok ⊢
      cases hl : fsLookup st.fs (pref ++ [c]) with
      | some n =>
        simp only [hl] at hok ⊢
        cases hd : n.isDir with
        | true =>
          simp only [hd, if_true] at hok ⊢
          exact ih st (pref ++ [c]) (by simp) hok
        | false =>
          simp [hd] at hok
      | none =>
        simp only [hl] at hok ⊢
        exact ih _ (pref ++ [c]) (by simp) hok

/-- The placeholder creation loop preserves every existing directory. -/
theorem fsIsDir_create_dirs (ds : List String) :
    ∀ (st : St) (root q : List String), fsIsDir st.fs q = true →
      fsIsDir (create_dirs st root ds).2.fs q = true := by
  induction ds with
  | nil => intro st root q h; exact h
  | cons d ds ih =>
    intro st root q h
    unfold create_dirs
    cases hm : mkdirSteps st [] (root ++ [d]) with
    | mk ok1 st1 =>
      cases ok1 with
      | false =>
        have := fsIsDir_mkdirSteps (root ++ [d]) st [] q h
        rw [hm] at this
        exact this
      | true =>
        apply ih
        have := fsIsDir_mkdirSteps (root ++ [d]) st [] q h
        rw [hm] at this
        exact this

/-- A successful placeholder creation loop leaves a directory at every
requested name under the root. -/
theorem create_dirs_makes_dirs (ds : List String) :
    ∀ (st : St) (root : List String), (create_dirs st root ds).1 = true →
      ∀ d ∈ ds, fsIsDir (create_dirs st root ds).2.fs (root ++ [d]) = true := by
  induction ds with
  | nil => intro st root _ d hd; exact absurd hd (List.not_mem_nil d)
  | cons d0 ds ih =>
    intro st root hok d hd
    unfold create_dirs at hok ⊢
    cases hm : mkdirSteps st [] (root ++ [d0]) with
    | mk ok1 st1 =>
      cases ok1 with
      | false => simp [hm] at hok
      | true =>
        simp only [hm] at hok ⊢
        rcases List.mem_cons.mp hd with hd0 | hmem
        · subst hd0
          have h1 : fsIsDir st1.fs (root ++ [d]) = true := by
            have := mkdirSteps_makes_dir (root ++ [d]) st [] (by simp)
              (by rw [hm])
            rw [hm] at this
            simpa using this
          exact fsIsDir_create_dirs ds st1 root (root ++ [d]) h1
        · exact ih st1 root hok d hmem

/-- Creating the resolver stub preserves every existing directory. -/
theorem fsIsDir_fileCreate (st : St) (p q : List String)
    (h : fsIsDir st.fs q = true) :
    fsIsDir (fileCreate st p).2.fs q = true := by
  unfold fileCreate
  cases hl : fsLookup st.fs p.dropLast with
  | none => exact h
  | some parent =>
    cases hpd : parent.isDir with
    | false => simpa [hpd] using h
    | true =>
      simp only [hpd, if_true]
      cases hm : fsLookup st.fs p with
      | some m =>
        cases hmd : m.isDir with
        | true => simpa [hmd] using h
        | false =>
          have hq : q ≠ p := by
            intro hq
            subst hq
            unfold fsIsDir at h
            rw [hm] at h
            simp only at h
            rw [hmd] at h
            exact Bool.false_ne_true h
          simp [hmd, fsIsDir_set, hq, h]
      | none =>
        have hq : q ≠ p := by
          intro hq
          subst hq
          unfold fsIsDir at h
          rw [hm] at h
          exact Bool.false_ne_true h
        simp [fsIsDir_createNode, hq, h]

/-- A successful `File::create` leaves the file present, with its parent a
directory (the parent is never created by this step). -/
theorem fileCreate_makes_file (st : St) (p : List String) (hp : p ≠ [])
    (hok : (fileCreate st p).1 = true) :
    fsExists (fileCreate st p).2.fs p = true ∧
      fsIsDir (fileCreate st p).2.fs p.dropLast = true := by
  have hne : p.dropLast ≠ p := by
    intro hcontra
    have := congrArg List.length hcontra
    rw [List.length_dropLast] at this
    cases p with
    | nil => exact hp rfl
    | cons a l => simp at this
  unfold fileCreate at hok ⊢
  cases hl : fsLookup st.fs p.dropLast with
  | none => simp [hl] at hok
  | some parent =>
    simp only [hl] at hok ⊢
    cases hpd : parent.isDir with
    | false => simp [hpd] at hok
    | true =>
      simp only [hpd, if_true] at hok ⊢
      cases hm : fsLookup st.fs p with
      | some m =>
        simp only [hm] at hok ⊢
        cases hmd : m.isDir with
        | true => simp [hmd] at hok
        | false =>
          have h2 : fsIsDir st.fs p.dropLast = true := by
            unfold fsIsDir
            rw [hl]
            exact hpd
          refine ⟨?_, ?_⟩
          · simp [fsExists_set]
          · simp [fsIsDir_set, hne, h2]
      | none =>
        have h2 : fsIsDir st.fs p.dropLast = true := by
          unfold fsIsDir
          rw [hl]
          exact hpd
        refine ⟨?_, ?_⟩
        · simp [fsExists_createNode]
        · simp [fsIsDir_createNode, hne, h2]

/-- Display events do not survive the non-display filter. -/
theorem filtEv_spinnerMessage (b : Bool) (m : String) :
    filtEv (spinnerMessage b m) = [] := by
  cases b <;> simp [spinnerMessage, filtEv, isDisplayEv]

/-- Display teardown events do not survive the non-display filter. -/
theorem filtEv_spinnerClear (b : Bool) :
    filtEv (spinnerClear b) = [] := by
  cases b <;> simp [spinnerClear, filtEv, isDisplayEv]

/-- The non-display filter distributes over concatenation. -/
theorem filtEv_append (a b : List Event) :
    filtEv (a ++ b) = filtEv a ++ filtEv b := by
  simp [filtEv, List.filter_append]

/-- Spinner messages carry no subprocess invocation. -/
theorem spawnPairs_spinnerMessage (b : Bool) (m : String) :
    spawnPairs (spinnerMessage b m) = [] := by
  cases b <;> simp [spinnerMessage, spawnPairs]

/-- Spinner teardown carries no subprocess invocation. -/
theorem spawnPairs_spinnerClear (b : Bool) :
    spawnPairs (spinnerClear b) = [] := by
  cases b <;> simp [spinnerClear, spawnPairs]

/-- The spawn projection distributes over concatenation. -/
theorem spawnPairs_append (a b : List Event) :
    spawnPairs (a ++ b) = spawnPairs a ++ spawnPairs b := by
  simp [spawnPairs, List.filterMap_append]

/-- The spawn projection of a spawn event at the head of a trace. -/
theorem spawnPairs_spawnEv (c : String) (a : List String) (l : List Event) :
    spawnPairs (Event.spawnEv c a :: l) = (c, a) :: spawnPairs l := by
  simp [spawnPairs]

/-- The spawn projection of the empty trace. -/
theorem spawnPairs_nil : spawnPairs [] = [] := rfl

/-- Every event of the streaming pass is an entry-unpack event, so it
satisfies any predicate holding on those. -/
theorem unpackLoop_events (env : Env) (newRoot : List String)
    (P : Event → Bool) (hP : ∀ p, P (Event.unpackEntry p) = true) :
    ∀ (es : List Entry) (st : St),
      ((unpackLoop env newRoot es st).2.2.1).all P = true := by
  intro es
  induction es with
  | nil => intro st; rfl
  | cons e es ih =>
    intro st
    unfold unpackLoop
    by_cases hc : env.cwdIsDir e.path = true
    · rw [if_pos hc]
      rcases h : unpackLoop env newRoot es st with ⟨r, st1, evs, ds⟩
      have hall := ih st
      rw [h] at hall
      simpa using hall
    · rw [if_neg hc]
      rcases h2 : unpackIn st newRoot e with ⟨b, st1⟩
      cases b with
      | false => simp [hP]
      | true =>
        dsimp only
        rcases h : unpackLoop env newRoot es st1 with ⟨r, st2, evs, ds⟩
        have hall := ih st1
        rw [h] at hall
        simp only at hall
        simp [hP, hall]

/-- Every event of the deferred-directory pass is an entry-unpack event. -/
theorem unpackDirsPhase_events (newRoot : List String)
    (P : Event → Bool) (hP : ∀ p, P (Event.unpackEntry p) = true) :
    ∀ (ds : List Entry) (st : St),
      ((unpackDirsPhase newRoot ds st).2.2).all P = true := by
  intro ds
  induction ds with
  | nil => intro st; rfl
  | cons d ds ih =>
    intro st
    unfold unpackDirsPhase
    rcases h2 : unpackIn st newRoot d with ⟨b, st1⟩
    cases b with
    | false => simp [hP]
    | true =>
      dsimp only
      rcases h : unpackDirsPhase newRoot ds st1 with ⟨r, st2, evs⟩
      have hall := ih st1
      rw [h] at hall
      simp only at hall
      simp [hP, hall]

/-- Every event of the extraction engine is the opening of the given archive
or an entry-unpack event. -/
theorem unpack_tar_events (env : Env) (st : St) (tar : String)
    (newRoot : List String) (P : Event → Bool)
    (hP : ∀ p, P (Event.unpackEntry p) = true)
    (hT : P (Event.tarOpen tar) = true) :
    ((unpack_tar env st tar newRoot).2.2).all P = true := by
  unfold unpack_tar
  cases ha : env.archives tar with
  | none => rfl
  | some entries =>
    dsimp only
    rcases hl : unpackLoop env newRoot entries st with ⟨r, st1, evs, ds⟩
    have hall := unpackLoop_events env newRoot P hP entries st
    rw [hl] at hall
    simp only at hall
    cases r with
    | error e => simpa [hT] using hall
    | ok u =>
      dsimp only
      rcases hd : unpackDirsPhase newRoot (sortDescByPathLen ds) st1 with ⟨r2, st2, evs2⟩
      have hall2 := unpackDirsPhase_events newRoot P hP (sortDescByPathLen ds) st1
      rw [hd] at hall2
      simp only at hall2
      simp [hT, hall, hall2]

/-- Spinner messages satisfy any predicate holding on display events. -/
theorem spinnerMessage_all (b : Bool) (m : String) (P : Event → Bool)
    (hP : ∀ ms, P (Event.display ms) = true) :
    (spinnerMessage b m).all P = true := by
  cases b <;> simp [spinnerMessage, hP]

/-- Spinner teardown satisfies any predicate holding on display events. -/
theorem spinnerClear_all (b : Bool) (P : Event → Bool)
    (hP : P Event.clearDisplay = true) :
    (spinnerClear b).all P = true := by
  cases b <;> simp [spinnerClear, hP]

/-- Every event of `setup_new_root` is a namespace start, spinner activity,
the opening of the given archive, or an entry unpack — in particular, no
subprocess is ever spawned there. -/
theorem setup_new_root_events (env : Env) (st : St) (newRoot : List String)
    (tar : String) (quiet : Bool) (P : Event → Bool)
    (hP1 : ∀ p, P (Event.unpackEntry p) = true)
    (hP2 : ∀ ms, P (Event.display ms) = true)
    (hP3 : P Event.clearDisplay = true)
    (hP4 : ∀ ms, P (Event.nsStart ms) = true)
    (hP5 : P (Event.tarOpen tar) = true) :
    ((setup_new_root env st newRoot tar quiet).2.2).all P = true := by
  unfold setup_new_root
  by_cases hns : env.nsStartOk = true
  · rw [if_pos hns]
    rcases hu : unpack_tar env st tar newRoot with ⟨r, st1, evs⟩
    have hall := unpack_tar_events env st tar newRoot P hP1 hP5
    rw [hu] at hall
    simp only at hall
    cases r with
    | error e =>
      simp [hP4, hall, spinnerMessage_all _ _ P hP2]
    | ok u =>
      dsimp only
      rcases hc : create_dirs st1 newRoot ["host", "proc", "sys", "dev"] with ⟨b, st2⟩
      cases b with
      | false =>
        simp [hP4, hall, spinnerMessage_all _ _ P hP2]
      | true =>
        dsimp only
        rcases hf : fileCreate st2 (newRoot ++ ["etc", "resolv.conf"]) with ⟨b2, st3⟩
        cases b2 with
        | false =>
          simp [hP4, hall, spinnerMessage_all _ _ P hP2]
        | true =>
          simp [hP4, hall, spinnerMessage_all _ _ P hP2,
            spinnerClear_all _ P hP3]
  · rw [if_neg hns]
    simp [hP4]

/-- The non-display filter keeps a head event unless it is display
activity. -/
theorem filtEv_cons (x : Event) (l : List Event) :
    filtEv (x :: l) = if isDisplayEv x then filtEv l else x :: filtEv l := by
  cases hx : isDisplayEv x <;> simp [filtEv, List.filter_cons, hx]

/-- The image acquisition's outcome and non-display events do not depend on
the quiet flag. -/
theorem get_image_quiet (env : Env) (e u t : String) (q q' : Bool) :
    (get_image env e u t q).1 = (get_image env e u t q').1 ∧
      filtEv (get_image env e u t q).2 = filtEv (get_image env e u t q').2 := by
  unfold get_image spawn
  cases h1 : env.engine e ["create", u] with
  | none =>
    simp [filtEv_append, filtEv_spinnerMessage, filtEv_cons, isDisplayEv]
  | some out =>
    dsimp only
    cases h2 : env.engine e ["export", strTrim out.stdout, "--output", t] with
    | none =>
      simp [filtEv_append, filtEv_spinnerMessage, filtEv_cons, isDisplayEv]
    | some out2 =>
      dsimp only
      cases h3 : env.engine e ["rm", strTrim out.stdout] with
      | none =>
        simp [filtEv_append, filtEv_spinnerMessage, filtEv_cons, isDisplayEv]
      | some out3 =>
        simp [filtEv_append, filtEv_spinnerMessage, filtEv_spinnerClear,
          filtEv_cons, isDisplayEv]

/-- The provisioning core's outcome, final state and non-display events do
not depend on the quiet flag. -/
theorem setup_new_root_quiet (env : Env) (st : St) (newRoot : List String)
    (tar : String) (q q' : Bool) :
    (setup_new_root env st newRoot tar q).1 = (setup_new_root env st newRoot tar q').1 ∧
      (setup_new_root env st newRoot tar q).2.1 = (setup_new_root env st newRoot tar q').2.1 ∧
      filtEv (setup_new_root env st newRoot tar q).2.2
        = filtEv (setup_new_root env st newRoot tar q').2.2 := by
  unfold setup_new_root
  by_cases hns : env.nsStartOk = true
  · rw [if_pos hns, if_pos hns]
    rcases hu : unpack_tar env st tar newRoot with ⟨r, st1, evs⟩
    cases r with
    | error e =>
      refine ⟨rfl, rfl, ?_⟩
      simp [filtEv_cons, isDisplayEv, filtEv_append, filtEv_spinnerMessage]
    | ok u =>
      dsimp only
      rcases hc : create_dirs st1 newRoot ["host", "proc", "sys", "dev"] with ⟨b, st2⟩
      cases b with
      | false =>
        refine ⟨rfl, rfl, ?_⟩
        simp [filtEv_cons, isDisplayEv, filtEv_append, filtEv_spinnerMessage]
      | true =>
        dsimp only
        rcases hf : fileCreate st2 (newRoot ++ ["etc", "resolv.conf"]) with ⟨b2, st3⟩
        cases b2 with
        | false =>
          refine ⟨rfl, rfl, ?_⟩
          simp [filtEv_cons, isDisplayEv, filtEv_append, filtEv_spinnerMessage]
        | true =>
          refine ⟨rfl, rfl, ?_⟩
          simp [filtEv_cons, isDisplayEv, filtEv_append, filtEv_spinnerMessage,
            filtEv_spinnerClear]
  · rw [if_neg hns, if_neg hns]
    exact ⟨rfl, rfl, rfl⟩

/-- A directory at a path implies a node exists at that path. -/
theorem fsExists_of_fsIsDir (fs : FS) (p : List String)
    (h : fsIsDir fs p = true) : fsExists fs p = true := by
  unfold fsIsDir at h
  unfold fsExists
  cases hl : fsLookup fs p with
  | none => rw [hl] at h; exact absurd h (by simp)
  | some n => simp

/-- Archive entry for the directory `a/` with recorded mtime 5. -/
def entryDirA : Entry := ⟨"a/", EntryKind.directory, 493, 5⟩

/-- Archive entry for the regular file `a/f` with recorded mtime 7. -/
def entryFileAF : Entry := ⟨"a/f", EntryKind.regular, 420, 7⟩

/-- Environment whose archive `/t.tar` lists the directory `a/` before the
file `a/f`, extracted from a working directory that contains none of the
archive's paths, so `Path::is_dir()` answers false everywhere. -/
def envC1a : Env :=
  { uid := 1000, configs := fun _ => none, nsStartOk := true,
    engine := fun _ _ => none,
    archives := fun p => if p = "/t.tar" then some [entryDirA, entryFileAF] else none,
    cwdIsDir := fun _ => false }

/-- The same environment with the two archive entries in the opposite
order. -/
def envC1b : Env :=
  { envC1a with
    archives := fun p => if p = "/t.tar" then some [entryFileAF, entryDirA] else none }

/-- Initial state for the extraction counterexamples: empty tree, clock
100. -/
def stC1 : St := ⟨[], 100⟩

/-- C1: the claim that every directory's final metadata equals the archive's
record independently of entry order fails on the code.  Because `unpack_tar`
classifies entries with `Path::is_dir()` — a live filesystem test at the
process's working directory — the directory entry `a/` is not deferred; with
`a/` listed first its recorded mtime 5 is overwritten when `a/f` is created
beneath it (final mtime 102 ≠ 5), while the reverse entry order ends with
mtime 5: the final metadata disagrees with the record and depends on the
order. -/
theorem c1_dir_metadata_depends_on_order :
    (fsLookup (unpack_tar envC1a stC1 "/t.tar" ["r"]).2.1.fs ["r", "a"]).map Node.mtime
        ≠ some 5
    ∧ (fsLookup (unpack_tar envC1b stC1 "/t.tar" ["r"]).2.1.fs ["r", "a"]).map Node.mtime
        = some 5 :=
  ⟨by decide, by decide⟩

/-- Archive entry for the directory `d/`. -/
def entryDirD : Entry := ⟨"d/", EntryKind.directory, 493, 5⟩

/-- Archive entry for the regular file `x`. -/
def entryFileX : Entry := ⟨"x", EntryKind.regular, 420, 7⟩

/-- Environment whose archive `/t.tar` lists the directory entry `d/` before
the file `x`, with a working directory containing no path named `d`. -/
def envC2 : Env :=
  { envC1a with
    archives := fun p => if p = "/t.tar" then some [entryDirD, entryFileX] else none }

/-- The same environment, but run from a working directory that happens to
contain a directory named `d`, so `Path::is_dir()` answers true for `d/`. -/
def envC2cwd : Env :=
  { envC2 with cwdIsDir := fun p => p = "d/" }

/-- C2: the claim that directory-kind entries are deferred to a second phase
fails on the code.  The entry `d/` has directory kind, yet with a typical
working directory it is unpacked first, in phase one, before the file `x`;
the same archive extracted from a directory that happens to contain `d`
defers it.  Deferral is decided by the ambient filesystem, not the entry
kind. -/
theorem c2_dir_entry_not_deferred :
    entryDirD.kind = EntryKind.directory
    ∧ (unpack_tar envC2 stC1 "/t.tar" ["r"]).2.2
        = [Event.tarOpen "/t.tar", Event.unpackEntry "d/", Event.unpackEntry "x"]
    ∧ (unpack_tar envC2cwd stC1 "/t.tar" ["r"]).2.2
        = [Event.tarOpen "/t.tar", Event.unpackEntry "x", Event.unpackEntry "d/"] :=
  ⟨rfl, by decide, by decide⟩

/-- Environment for the C3 counterexample: a configuration for name `t`
maps to the fresh target `/r`; no tar and no image will be supplied. -/
def env3 : Env :=
  { uid := 1000,
    configs := fun n => if n = "t" then some ⟨"/r", "sh"⟩ else none,
    nsStartOk := true, engine := fun _ _ => none, archives := fun _ => none,
    cwdIsDir := fun _ => false }

/-- Initial state for the C3 counterexample: empty tree. -/
def st3 : St := ⟨[], 10⟩

/-- Arguments with neither a tar path nor an image reference. -/
def args3 : Create := ⟨"t", none, none, none, none, true⟩

/-- C3 counterexample: with neither a tar path nor an image supplied, the
run does fail with the configuration error, but the target directory `/r`
has already been created when the error is returned — refuting the claim
that the failure occurs before any directory is created. -/
theorem c3_counterexample :
    (create env3 st3 args3).1
      = Except.error (Err.configurationError
          "No tar archive or valid OCI arguments have been provided")
    ∧ fsIsDir (create env3 st3 args3).2.1.fs (splitPath "/r") = true :=
  ⟨rfl, rfl⟩

/-- C3 (amended): when neither a local tar path nor a complete image/engine
pair is supplied, provisioning fails with a ConfigurationError, but only
after the target directory has been created: the target exists in the
resulting filesystem when the error is returned. -/
theorem c3_amended_config_error_after_mkdir (env : Env) (st : St) (args : Create)
    (cfg : Config)
    (h1 : env.configs args.name = some cfg)
    (h2 : fsExists st.fs (splitPath cfg.image) = false)
    (h3 : splitPath cfg.image ≠ [])
    (h4 : (mkdirSteps st [] (splitPath cfg.image)).1 = true)
    (h5 : args.tar = none)
    (h6 : args.image = none ∨ args.engine = none) :
    (∃ msg, (create env st args).1 = Except.error (Err.configurationError msg))
    ∧ fsExists (create env st args).2.1.fs (splitPath cfg.image) = true := by
  unfold create
  rw [h1]
  dsimp only
  rw [if_neg (by rw [h2]; exact Bool.false_ne_true)]
  rcases hm : mkdirSteps st [] (splitPath cfg.image) with ⟨ok1, st1⟩
  have hdir : fsIsDir st1.fs (splitPath cfg.image) = true := by
    have hh := mkdirSteps_makes_dir (splitPath cfg.image) st [] h3 h4
    rw [hm] at hh
    simpa using hh
  have hok1 : ok1 = true := by rw [hm] at h4; exact h4
  subst hok1
  dsimp only
  rw [h5]
  dsimp only
  cases hi : args.image with
  | none =>
    dsimp only
    exact ⟨⟨_, rfl⟩, fsExists_of_fsIsDir _ _ hdir⟩
  | some oci =>
    rcases h6 with h6 | h6
    · rw [hi] at h6
      exact absurd h6 (by simp)
    · rw [h6]
      dsimp only
      exact ⟨⟨_, rfl⟩, fsExists_of_fsIsDir _ _ hdir⟩

/-- C3 amended-claim witness at the concrete counterexample input: the
target `/r` exists once the configuration error has been returned. -/
theorem c3_amended_witness :
    fsExists (create env3 st3 args3).2.1.fs (splitPath "/r") = true :=
  (c3_amended_config_error_after_mkdir env3 st3 args3 ⟨"/r", "sh"⟩ rfl rfl
    (by decide) rfl rfl (Or.inl rfl)).2

/-- Environment in which every engine subcommand can be spawned, but the
`create` subcommand exits with status 1 (its captured stdout is `cid0`),
while every other invocation exits 0. -/
def envC4 : Env :=
  { uid := 1000, configs := fun _ => none, nsStartOk := true,
    engine := fun _ a =>
      if a = ["create", "alpine"] then some ⟨"cid0\x0a", 1⟩ else some ⟨"", 0⟩,
    archives := fun _ => none, cwdIsDir := fun _ => false }

/-- C4 counterexample: the `create` subcommand returns exit status 1, yet
image acquisition succeeds — the code never inspects exit statuses, refuting
the claim that a non-zero exit status at any step causes an EngineError. -/
theorem c4_counterexample :
    envC4.engine "docker" ["create", "alpine"] = some ⟨"cid0\x0a", 1⟩
    ∧ (get_image envC4 "docker" "alpine" "/tmp/unbox-t-image.tar" true).1
        = Except.ok () :=
  ⟨rfl, rfl⟩

/-- C4 (amended): image acquisition fails with an EngineError exactly when
one of the three subcommand processes cannot be spawned at all; the exit
statuses of `create`, `export` and `rm` are never inspected, so a non-zero
exit status alone never causes a failure. -/
theorem c4_amended_exit_status_ignored (env : Env) (e url tf : String) (q : Bool) :
    (get_image env e url tf q).1 =
      if ((env.engine e ["create", url]).isSome
          && (env.engine e ["export", cidOf env e url, "--output", tf]).isSome
          && (env.engine e ["rm", cidOf env e url]).isSome) = true
      then Except.ok ()
      else Except.error (Err.engineErr "Could not execute the provided engine") := by
  unfold get_image spawn cidOf
  cases h1 : env.engine e ["create", url] with
  | none => simp
  | some out =>
    dsimp only
    cases h2 : env.engine e ["export", strTrim out.stdout, "--output", tf] with
    | none => simp
    | some out2 =>
      dsimp only
      cases h3 : env.engine e ["rm", strTrim out.stdout] with
      | none => simp
      | some out3 => simp

/-- C5: if the target path recorded in the configuration already exists,
provisioning fails with the TargetExists error and performs no filesystem
mutation at all: the returned state is the initial state and no event is
emitted. -/
theorem c5_target_exists_no_mutation (env : Env) (st : St) (args : Create)
    (cfg : Config) (h1 : env.configs args.name = some cfg)
    (h2 : fsExists st.fs (splitPath cfg.image) = true) :
    create env st args = (Except.error Err.targetExists, st, []) := by
  unfold create
  rw [h1]
  dsimp only
  rw [if_pos h2]

/-- Configuration whose target `/r` already exists for the C5 witness. -/
def cfg5 : Config := ⟨"/r", "sh"⟩

/-- Environment for the C5 witness. -/
def env5 : Env :=
  { uid := 1000, configs := fun n => if n = "t" then some cfg5 else none,
    nsStartOk := true, engine := fun _ _ => none, archives := fun _ => none,
    cwdIsDir := fun _ => false }

/-- State whose tree already contains the target directory `/r`. -/
def st5 : St := ⟨[(["r"], ⟨true, 493, 7⟩)], 10⟩

/-- Arguments naming the existing toolbox `t` for the C5 witness. -/
def args5 : Create := ⟨"t", some "/a.tar", none, none, none, false⟩

/-- C5 witness: at a concrete pre-existing target, the run returns
TargetExists, leaving state and trace untouched. -/
theorem c5_witness :
    create env5 st5 args5 = (Except.error Err.targetExists, st5, []) :=
  c5_target_exists_no_mutation env5 st5 args5 cfg5 rfl rfl

/-- C6: the engine protocol of `get_image`: the spawned subprocesses are
always a create-export-rm chain in this fixed order; the container id passed
to both `export` and `rm` is exactly the `create` output's stdout trimmed of
surrounding whitespace; a failed `export` spawn stops the run before `rm`,
and a failed `create` spawn stops it before `export`. -/
theorem c6_engine_protocol (env : Env) (e url tarFile : String) (quiet : Bool) :
    spawnPairs (get_image env e url tarFile quiet).2 =
      match env.engine e ["create", url] with
      | none => [(e, ["create", url])]
      | some out =>
        match env.engine e ["export", strTrim out.stdout, "--output", tarFile] with
        | none => [(e, ["create", url]),
            (e, ["export", strTrim out.stdout, "--output", tarFile])]
        | some _ => [(e, ["create", url]),
            (e, ["export", strTrim out.stdout, "--output", tarFile]),
            (e, ["rm", strTrim out.stdout])] := by
  unfold get_image spawn
  cases h1 : env.engine e ["create", url] with
  | none => simp [spawnPairs_append, spawnPairs_spinnerMessage, spawnPairs_spawnEv, spawnPairs_nil]
  | some out =>
    dsimp only
    cases h2 : env.engine e ["export", strTrim out.stdout, "--output", tarFile] with
    | none => simp [spawnPairs_append, spawnPairs_spinnerMessage, spawnPairs_spawnEv, spawnPairs_nil]
    | some out2 =>
      dsimp only
      cases h3 : env.engine e ["rm", strTrim out.stdout] with
      | none => simp [spawnPairs_append, spawnPairs_spinnerMessage, spawnPairs_spawnEv, spawnPairs_nil]
      | some out3 =>
        simp [spawnPairs_append, spawnPairs_spinnerMessage,
          spawnPairs_spinnerClear, spawnPairs_spawnEv, spawnPairs_nil]

/-- C7: every provisioning run calls namespace creation with exactly one
UID/GID mapping entry whose fields are inside 0, outside the caller's
current real UID, and length 1: this singleton mapping is the first
observable event of `setup_new_root`, whatever else happens. -/
theorem c7_single_uid_mapping (env : Env) (st : St) (newRoot : List String)
    (tar : String) (quiet : Bool) :
    ((setup_new_root env st newRoot tar quiet).2.2).head?
      = some (Event.nsStart [⟨"0", toString env.uid, "1"⟩]) := by
  unfold setup_new_root
  by_cases hns : env.nsStartOk = true
  · rw [if_pos hns]
    rcases hu : unpack_tar env st tar newRoot with ⟨r, st1, evs⟩
    cases r with
    | error e => rfl
    | ok u =>
      dsimp only
      rcases hc : create_dirs st1 newRoot ["host", "proc", "sys", "dev"] with ⟨b, st2⟩
      cases b with
      | false => rfl
      | true =>
        dsimp only
        rcases hf : fileCreate st2 (newRoot ++ ["etc", "resolv.conf"]) with ⟨b2, st3⟩
        cases b2 with
        | false => rfl
        | true => rfl
  · rw [if_neg hns]
    rfl

/-- C8: after a successful `setup_new_root`, the four placeholder
directories and the resolver stub all exist under the target, and the `etc`
directory — which only extraction could have produced — is present. -/
theorem c8_placeholders_exist (env : Env) (st : St) (newRoot : List String)
    (tar : String) (quiet : Bool) (st' : St) (evs : List Event)
    (h : setup_new_root env st newRoot tar quiet = (Except.ok (), st', evs)) :
    fsIsDir st'.fs (newRoot ++ ["host"]) = true ∧
    fsIsDir st'.fs (newRoot ++ ["proc"]) = true ∧
    fsIsDir st'.fs (newRoot ++ ["sys"]) = true ∧
    fsIsDir st'.fs (newRoot ++ ["dev"]) = true ∧
    fsExists st'.fs (newRoot ++ ["etc", "resolv.conf"]) = true ∧
    fsIsDir st'.fs (newRoot ++ ["etc"]) = true := by
  unfold setup_new_root at h
  by_cases hns : env.nsStartOk = true
  case neg => rw [if_neg hns] at h; simp at h
  rw [if_pos hns] at h
  rcases hu : unpack_tar env st tar newRoot with ⟨r, st1, evs1⟩
  rw [hu] at h
  cases r with
  | error e => simp at h
  | ok u =>
    dsimp only at h
    rcases hc : create_dirs st1 newRoot ["host", "proc", "sys", "dev"] with ⟨b, st2⟩
    rw [hc] at h
    cases b with
    | false => simp at h
    | true =>
      dsimp only at h
      rcases hf : fileCreate st2 (newRoot ++ ["etc", "resolv.conf"]) with ⟨b2, st3⟩
      rw [hf] at h
      cases b2 with
      | false => simp at h
      | true =>
        dsimp only at h
        have hst : st3 = st' := by
          have := congrArg (fun x => x.2.1) h
          simpa using this
        subst hst
        have hds := create_dirs_makes_dirs ["host", "proc", "sys", "dev"] st1 newRoot
          (by rw [hc])
        rw [hc] at hds
        dsimp only at hds
        have hfile := fileCreate_makes_file st2 (newRoot ++ ["etc", "resolv.conf"])
          (by simp) (by rw [hf])
        rw [hf] at hfile
        dsimp only at hfile
        have hdl : (newRoot ++ ["etc", "resolv.conf"]).dropLast = newRoot ++ ["etc"] := by
          have hsplit : newRoot ++ ["etc", "resolv.conf"]
              = (newRoot ++ ["etc"]) ++ ["resolv.conf"] := by simp
          rw [hsplit, List.dropLast_concat]
        rw [hdl] at hfile
        have hhost := fsIsDir_fileCreate st2 (newRoot ++ ["etc", "resolv.conf"])
          (newRoot ++ ["host"]) (hds "host" (by simp))
        have hproc := fsIsDir_fileCreate st2 (newRoot ++ ["etc", "resolv.conf"])
          (newRoot ++ ["proc"]) (hds "proc" (by simp))
        have hsys := fsIsDir_fileCreate st2 (newRoot ++ ["etc", "resolv.conf"])
          (newRoot ++ ["sys"]) (hds "sys" (by simp))
        have hdev := fsIsDir_fileCreate st2 (newRoot ++ ["etc", "resolv.conf"])
          (newRoot ++ ["dev"]) (hds "dev" (by simp))
        rw [hf] at hhost hproc hsys hdev
        dsimp only at hhost hproc hsys hdev
        exact ⟨hhost, hproc, hsys, hdev, hfile.1, hfile.2⟩

/-- Archive entry for the directory `etc/`. -/
def entryEtc : Entry := ⟨"etc/", EntryKind.directory, 493, 11⟩

/-- Environment for the C8 witness: the archive holds only `etc/`, so the
placeholders must come from the placeholder-creation step. -/
def envW : Env :=
  { uid := 1000, configs := fun _ => none, nsStartOk := true,
    engine := fun _ _ => none,
    archives := fun p => if p = "/a.tar" then some [entryEtc] else none,
    cwdIsDir := fun _ => false }

/-- Initial state for the C8 witness. -/
def stW : St := ⟨[], 50⟩

/-- C8 witness: a concrete successful run on an archive containing only
`etc/` ends with the `host` placeholder directory in place. -/
theorem c8_witness :
    (setup_new_root envW stW ["r"] "/a.tar" true).1 = Except.ok ()
    ∧ fsIsDir ((setup_new_root envW stW ["r"] "/a.tar" true).2.1).fs
        (["r"] ++ ["host"]) = true := by
  have h1 : (setup_new_root envW stW ["r"] "/a.tar" true).1 = Except.ok () := by rfl
  have h : setup_new_root envW stW ["r"] "/a.tar" true
      = (Except.ok (), (setup_new_root envW stW ["r"] "/a.tar" true).2.1,
          (setup_new_root envW stW ["r"] "/a.tar" true).2.2) := by
    rw [← h1]
  exact ⟨h1, (c8_placeholders_exist envW stW ["r"] "/a.tar" true _ _ h).1⟩

/-- C9: whenever a tar path is supplied, it wins over a simultaneously
supplied image reference: no engine subprocess is ever spawned during the
run, and the only archive ever opened is the supplied tar path. -/
theorem c9_tar_precedence (env : Env) (st : St) (args : Create)
    (t : String) (i : String)
    (h1 : args.tar = some t) (h2 : args.image = some i) :
    ((create env st args).2.2).all notEngineEv = true ∧
      ((create env st args).2.2).all (tarOpenOnly t) = true := by
  unfold create
  cases hc : env.configs args.name with
  | none => exact ⟨rfl, rfl⟩
  | some config =>
    dsimp only
    by_cases he : fsExists st.fs (splitPath config.image) = true
    · rw [if_pos he]
      exact ⟨rfl, rfl⟩
    · rw [if_neg he]
      rcases hm : mkdirSteps st [] (splitPath config.image) with ⟨ok1, st1⟩
      cases ok1 with
      | false => exact ⟨rfl, rfl⟩
      | true =>
        dsimp only
        rw [h1]
        dsimp only
        constructor
        · exact setup_new_root_events env st1 (splitPath config.image) t args.quiet
            notEngineEv (fun p => rfl) (fun ms => rfl) rfl (fun ms => rfl) rfl
        · exact setup_new_root_events env st1 (splitPath config.image) t args.quiet
            (tarOpenOnly t) (fun p => rfl) (fun ms => rfl) rfl (fun ms => rfl)
            (by simp [tarOpenOnly])

/-- Environment for the C9 witness with both a tar and an image supplied. -/
def env9 : Env :=
  { uid := 1000,
    configs := fun n => if n = "t" then some ⟨"/r", "sh"⟩ else none,
    nsStartOk := true,
    engine := fun _ _ => some ⟨"", 0⟩,
    archives := fun p => if p = "/a.tar" then some [entryEtc] else none,
    cwdIsDir := fun _ => false }

/-- Arguments supplying both a tar path and an image reference. -/
def args9 : Create :=
  ⟨"t", some "/a.tar", some "docker.io/alpine", some Engine.docker, none, true⟩

/-- Initial state for the C9 witness. -/
def st9 : St := ⟨[], 20⟩

/-- C9 witness: at a concrete run with both sources supplied, the trace
contains no engine subprocess invocation. -/
theorem c9_witness :
    ((create env9 st9 args9).2.2).all notEngineEv = true :=
  (c9_tar_precedence env9 st9 args9 "/a.tar" "docker.io/alpine" rfl rfl).1

/-- C10: two provisioning runs that differ only in the quiet flag have the
same outcome, the same final filesystem state and clock, and identical
traces once progress-display events are removed: the quiet flag controls
progress display and nothing else. -/
theorem c10_quiet_noninterference (env : Env) (st : St) (name : String)
    (tar : Option String) (image : Option String) (eng : Option Engine)
    (shell : Option String) :
    (create env st ⟨name, tar, image, eng, shell, true⟩).1
      = (create env st ⟨name, tar, image, eng, shell, false⟩).1 ∧
    (create env st ⟨name, tar, image, eng, shell, true⟩).2.1
      = (create env st ⟨name, tar, image, eng, shell, false⟩).2.1 ∧
    filtEv (create env st ⟨name, tar, image, eng, shell, true⟩).2.2
      = filtEv (create env st ⟨name, tar, image, eng, shell, false⟩).2.2 := by
  unfold create
  dsimp only
  cases hc : env.configs name with
  | none => exact ⟨rfl, rfl, rfl⟩
  | some config =>
    dsimp only
    by_cases he : fsExists st.fs (splitPath config.image) = true
    · rw [if_pos he, if_pos he]
      exact ⟨rfl, rfl, rfl⟩
    · rw [if_neg he, if_neg he]
      rcases hm : mkdirSteps st [] (splitPath config.image) with ⟨ok1, st1⟩
      cases ok1 with
      | false => exact ⟨rfl, rfl, rfl⟩
      | true =>
        dsimp only
        cases ht : tar with
        | some tarp =>
          exact setup_new_root_quiet env st1 (splitPath config.image) tarp true false
        | none =>
          dsimp only
          cases hi : image with
          | none => exact ⟨rfl, rfl, rfl⟩
          | some oci =>
            dsimp only
            cases heng : eng with
            | none => exact ⟨rfl, rfl, rfl⟩
            | some engine =>
              dsimp only
              rcases hg : get_image env engine.binary oci
                  ("/tmp/unbox-" ++ name ++ "-image.tar") true with ⟨r1, evs1⟩
              rcases hg2 : get_image env engine.binary oci
                  ("/tmp/unbox-" ++ name ++ "-image.tar") false with ⟨r2, evs2⟩
              have hq := get_image_quiet env engine.binary oci
                ("/tmp/unbox-" ++ name ++ "-image.tar") true false
              rw [hg, hg2] at hq
              dsimp only at hq
              obtain ⟨hr, hev⟩ := hq
              subst hr
              cases r1 with
              | error e => exact ⟨rfl, rfl, hev⟩
              | ok u =>
                dsimp only
                rcases hs : setup_new_root env st1 (splitPath config.image)
                    ("/tmp/unbox-" ++ name ++ "-image.tar") true with ⟨s1, sst1, sevs1⟩
                rcases hs2 : setup_new_root env st1 (splitPath config.image)
                    ("/tmp/unbox-" ++ name ++ "-image.tar") false with ⟨s2, sst2, sevs2⟩
                have hsq := setup_new_root_quiet env st1 (splitPath config.image)
                  ("/tmp/unbox-" ++ name ++ "-image.tar") true false
                rw [hs, hs2] at hsq
                dsimp only at hsq
                obtain ⟨hq1, hq2, hq3⟩ := hsq
                refine ⟨hq1, hq2, ?_⟩
                rw [filtEv_append, filtEv_append, hev, hq3]

end Unbox
